import Mathlib

/-!
# Verification of the Live-Variant color-remap node-graph builder

Shallow embedding of `src/utils/color_remap.py` (`apply_color_remaps`) and
`src/utils/multi_remap_controller.py` (`apply_multi_remap`).

The Python code constructs a Blender shader node graph.  We embed the graph
construction faithfully: nodes are created in the same order (so node ids are
list indices), links carry (source node, source socket, destination node,
destination socket), and unset inputs keep their default values exactly as the
Python sets them.  Python floats are modelled as exact rationals.

The *evaluation* semantics of the individual shader nodes (what the host
renderer computes for a `VectorMath DISTANCE`, `Math`, `Clamp`, `MixRGB`
node) are not part of this repository; they are modelled from the spec
(§4 per-pair algorithm): colors are 4-channel RGBA vectors, `DISTANCE` is the
Euclidean distance of 4-vectors, `Clamp` is min/max clamping with the node's
default bounds 0 and 1, and `MixRGB` with factor `f` is the linear
interpolation `c1*(1-f) + c2*f`.  The (irrational) square root is kept
abstract: the evaluator and the reference chain formula are parametrised by
the same function `sqrt : ℚ → ℚ`, and concrete instances use `Rat.sqrt` at
inputs whose squared distances are perfect squares.
-/

namespace LiveVariant

/-- An RGBA color: 4-tuple of channel values, modelled as exact rationals
(`color_remap.py` works with Python float 4-tuples). -/
structure Color where
  r : ℚ
  g : ℚ
  b : ℚ
  a : ℚ
deriving DecidableEq

/-- Componentwise sum of two colors. -/
def Color.add (c d : Color) : Color := ⟨c.r + d.r, c.g + d.g, c.b + d.b, c.a + d.a⟩

/-- Scale every channel of a color by `k`. -/
def Color.smul (k : ℚ) (c : Color) : Color := ⟨k * c.r, k * c.g, k * c.b, k * c.a⟩

/-- Squared Euclidean distance between two colors taken over all four
channels (R,G,B,A) as 4-vectors. -/
def distSq (c d : Color) : ℚ :=
  (c.r - d.r) ^ 2 + (c.g - d.g) ^ 2 + (c.b - d.b) ^ 2 + (c.a - d.a) ^ 2

/-- Linear interpolation `c*(1-f) + t*f` (the `MixRGB` blend). -/
def lerp (c t : Color) (f : ℚ) : Color :=
  Color.add (Color.smul (1 - f) c) (Color.smul f t)

/-- The kinds of shader nodes `apply_color_remaps` creates
(`color_remap.py` lines 64–66 and 78–84).  Input sockets that the Python
sets via `default_value` instead of linking are recorded in the
constructor:

* `rgb v` — a `ShaderNodeRGB` whose output default value is `v`
  (lines 97–98);
* `mathDivide d1` — `ShaderNodeMath` with `operation = DIVIDE` and
  `inputs[1].default_value = d1` (lines 100, 106);
* `mathSubtract d0` — `ShaderNodeMath` with `operation = SUBTRACT` and
  `inputs[0].default_value = d0` (lines 101, 108);
* `clampNode` — `ShaderNodeClamp` with its untouched default bounds
  `Min = 0`, `Max = 1`. -/
inductive NodeKind where
  | outputMaterial : NodeKind
  | bsdfPrincipled : NodeKind
  | texImage (image : ℕ) : NodeKind
  | rgb (value : Color) : NodeKind
  | vectorMathDistance : NodeKind
  | mathDivide (d1 : ℚ) : NodeKind
  | mathSubtract (d0 : ℚ) : NodeKind
  | clampNode : NodeKind
  | mixRGB : NodeKind
deriving DecidableEq

/-- A link `nt.links.new(src.outputs[srcOut], dst.inputs[dstIn])`.  Nodes are
identified by their creation index, sockets by their index (`Fac` = 0,
`Color1` = 1, `Color2` = 2 on a MixRGB node; `Value`/`Min`/`Max` = 0/1/2 on a
Clamp node; `Base Color` = 0 on the Principled BSDF; `Surface` = 0 on the
material output). -/
structure Link where
  srcNode : ℕ
  srcOut : ℕ
  dstNode : ℕ
  dstIn : ℕ
deriving DecidableEq

/-- The node tree `nt`: nodes in creation order plus the created links. -/
structure Graph where
  nodes : List NodeKind
  links : List Link
deriving DecidableEq

/-- Look up the link feeding input socket `i` of node `n`, if any.  In the
graphs built here every input socket receives at most one link, so taking
the first match is exact. -/
def findLink : List Link → ℕ → ℕ → Option Link
  | [], _, _ => none
  | l :: ls, n, i => if l.dstNode = n ∧ l.dstIn = i then some l else findLink ls n i

/-- The seven nodes one loop iteration of `apply_color_remaps` creates, in
creation order (`color_remap.py` lines 78–84, values assigned at lines
97–108): `src_col`, `tgt_col`, `dist`, `div`, `sub`, `clamp`, `mix`. -/
def pairNodes (tolerance : ℚ) (p : Color × Color) : List NodeKind :=
  [NodeKind.rgb p.1, NodeKind.rgb p.2, NodeKind.vectorMathDistance,
   NodeKind.mathDivide (max tolerance (1 / 100000)), NodeKind.mathSubtract 1,
   NodeKind.clampNode, NodeKind.mixRGB]

/-- The eight links of one pair's subnetwork (`color_remap.py` lines
104–113), with `last` the running color socket and `base` the index of the
pair's first node (`src_col`). -/
def pairLinks (last : ℕ × ℕ) (base : ℕ) : List Link :=
  [⟨last.1, last.2, base + 2, 0⟩,      -- last_color_output → dist.inputs[0]
   ⟨base, 0, base + 2, 1⟩,             -- src_col.Color → dist.inputs[1]
   ⟨base + 2, 0, base + 3, 0⟩,         -- dist.Value → div.inputs[0]
   ⟨base + 3, 0, base + 4, 1⟩,         -- div.Value → sub.inputs[1]
   ⟨base + 4, 0, base + 5, 0⟩,         -- sub.Value → clamp.Value
   ⟨last.1, last.2, base + 6, 1⟩,      -- last_color_output → mix.Color1
   ⟨base + 1, 0, base + 6, 2⟩,         -- tgt_col.Color → mix.Color2
   ⟨base + 5, 0, base + 6, 0⟩]         -- clamp.Result → mix.Fac

/-- The loop body of `apply_color_remaps` (`color_remap.py` lines 77–116):
append one pair's seven nodes and eight links; the pair's `mix` color
output (the new node at index `base + 6`, output 0) becomes the new running
color socket. -/
def addPairNodes (g : Graph) (last : ℕ × ℕ) (tolerance : ℚ) (p : Color × Color) :
    Graph × (ℕ × ℕ) :=
  (⟨g.nodes ++ pairNodes tolerance p, g.links ++ pairLinks last g.nodes.length⟩,
   (g.nodes.length + 6, 0))

/-- Folding `addPairNodes` over the remap pairs: the `for` loop of
`apply_color_remaps` (lines 77–116). -/
def remapLoop (tolerance : ℚ) (init : Graph × (ℕ × ℕ)) (pairs : List (Color × Color)) :
    Graph × (ℕ × ℕ) :=
  pairs.foldl (fun gs p => addPairNodes gs.1 gs.2 tolerance p) init

/-- The node-graph construction of `apply_color_remaps`
(`color_remap.py` lines 57–120): create `out` (node 0), `bsdf` (node 1) and
`tex` (node 2), build the remap chain starting from the texture color
output `(2, 0)`, then link the final running color output to the BSDF
`Base Color` input and the BSDF to the material output `Surface` input. -/
def buildRemapGraph (image : ℕ) (remap_pairs : List (Color × Color)) (tolerance : ℚ) :
    Graph :=
  let g0 : Graph := ⟨[NodeKind.outputMaterial, NodeKind.bsdfPrincipled,
                      NodeKind.texImage image], []⟩
  let ls := remapLoop tolerance (g0, (2, 0)) remap_pairs
  ⟨ls.1.nodes, ls.1.links ++ [⟨ls.2.1, ls.2.2, 1, 0⟩, ⟨1, 0, 0, 0⟩]⟩

/-- A value carried on a socket: a scalar or an RGBA color. -/
inductive Value where
  | scalar (x : ℚ) : Value
  | color (c : Color) : Value
deriving DecidableEq

/-- Modelled from the spec: the output semantics of one shader node, given
the sampled texture color and a resolver `inp i dflt` for input socket `i`
with unlinked-default `dflt`.  The host renderer that actually executes the
node graph is not part of this repository; §4 of the spec fixes the math:
`DISTANCE` is the 4-channel Euclidean distance, `Clamp` is
`min (max v lo) hi` with the node's default bounds, `MixRGB` is
`c1*(1-f) + c2*f`. -/
def evalNode (sqrt : ℚ → ℚ) (sample : Color) (k : Option NodeKind) (o : ℕ)
    (inp : ℕ → Option Value → Option Value) : Option Value :=
  match k, o with
  | some (NodeKind.texImage _), 0 => some (Value.color sample)
  | some (NodeKind.rgb c), 0 => some (Value.color c)
  | some NodeKind.vectorMathDistance, 0 =>
    match inp 0 none, inp 1 none with
    | some (Value.color x), some (Value.color y) =>
        some (Value.scalar (sqrt (distSq x y)))
    | _, _ => none
  | some (NodeKind.mathDivide d1), 0 =>
    match inp 0 none, inp 1 (some (Value.scalar d1)) with
    | some (Value.scalar x), some (Value.scalar y) => some (Value.scalar (x / y))
    | _, _ => none
  | some (NodeKind.mathSubtract d0), 0 =>
    match inp 0 (some (Value.scalar d0)), inp 1 none with
    | some (Value.scalar x), some (Value.scalar y) => some (Value.scalar (x - y))
    | _, _ => none
  | some NodeKind.clampNode, 0 =>
    match inp 0 none, inp 1 (some (Value.scalar 0)), inp 2 (some (Value.scalar 1)) with
    | some (Value.scalar v), some (Value.scalar lo), some (Value.scalar hi) =>
        some (Value.scalar (min (max v lo) hi))
    | _, _, _ => none
  | some NodeKind.mixRGB, 0 =>
    match inp 0 none, inp 1 none, inp 2 none with
    | some (Value.scalar f), some (Value.color c1), some (Value.color c2) =>
        some (Value.color (lerp c1 c2 f))
    | _, _, _ => none
  | _, _ => none

/-- Fuel-bounded evaluation of output socket `o` of node `n` in graph `g`
when the texture samples to `sample`.  A linked input evaluates the link's
source socket; an unlinked input falls back to the node's recorded default
value. -/
def evalOut (sqrt : ℚ → ℚ) (sample : Color) (g : Graph) : ℕ → ℕ → ℕ → Option Value
  | 0, _, _ => none
  | fuel + 1, n, o =>
    evalNode sqrt sample g.nodes[n]? o fun i dflt =>
      match findLink g.links n i with
      | some l => evalOut sqrt sample g fuel l.srcNode l.srcOut
      | none => dflt

/-- The color bound to the shading stage's base-color input: resolve the
link into input 0 of the Principled BSDF (node 1) and evaluate its source
socket. -/
def graphBaseColor (sqrt : ℚ → ℚ) (sample : Color) (g : Graph) (fuel : ℕ) :
    Option Color :=
  match findLink g.links 1 0 with
  | some l =>
    match evalOut sqrt sample g fuel l.srcNode l.srcOut with
    | some (Value.color c) => some c
    | _ => none
  | none => none

/-- The blend factor of one remap pair (spec §4 steps 1–3):
`clamp (1 - distance(current, source) / max(tolerance, 1e-5)) 0 1`. -/
def blendFactor (sqrt : ℚ → ℚ) (tolerance : ℚ) (current source : Color) : ℚ :=
  min (max (1 - sqrt (distSq current source) / max tolerance (1 / 100000)) 0) 1

/-- One step of the reference chain formula (spec §4 steps 1–5):
blend the running color toward the pair's target by the pair's blend
factor. -/
def remapStep (sqrt : ℚ → ℚ) (tolerance : ℚ) (current : Color) (p : Color × Color) :
    Color :=
  lerp current p.2 (blendFactor sqrt tolerance current p.1)

/-- The reference N-fold chained blend: fold `remapStep` over the pairs in
list order, starting from the sampled input color. -/
def remapChain (sqrt : ℚ → ℚ) (tolerance : ℚ) (c0 : Color) (pairs : List (Color × Color)) :
    Color :=
  pairs.foldl (remapStep sqrt tolerance) c0

/-- Every link of `g` runs between existing nodes, with its source at index
≥ 2 (the texture node or a later node) and its destination at index ≥ 3
(one of the per-pair nodes).  Every graph the remap loop produces satisfies
this. -/
def GraphWF (g : Graph) : Prop :=
  ∀ l ∈ g.links, 2 ≤ l.srcNode ∧ l.srcNode < g.nodes.length ∧
    3 ≤ l.dstNode ∧ l.dstNode < g.nodes.length

/-- `g'` extends `g` by fresh nodes and by links that feed no input of an
existing node other than the shading/output stage (node indices 0 and 1). -/
def Extends (g g' : Graph) : Prop :=
  ∃ ne le, g'.nodes = g.nodes ++ ne ∧ g'.links = g.links ++ le ∧
    ∀ l ∈ le, l.dstNode < 2 ∨ g.nodes.length ≤ l.dstNode

/-! ## The surrounding object/material state

`apply_color_remaps` (lines 38–55 and 122–127) also validates its inputs
and swaps the variant's material slots; `apply_multi_remap`
(`multi_remap_controller.py` lines 40–53) dispatches between copying the
base material (empty remap list) and calling `apply_color_remaps`.  We
model the host objects by the fields those functions read or write. -/

/-- A node of the base material's node tree, as far as the image search at
`color_remap.py` lines 48–52 reads it: its type string and, for image
texture nodes, its (possibly absent) image. -/
structure HostNode where
  type : String
  image : Option ℕ
deriving DecidableEq

/-- A host material: `use_nodes` plus its node tree. -/
structure HostMaterial where
  use_nodes : Bool
  nodes : List HostNode
deriving DecidableEq

/-- A material sitting in a material slot: either a host material (the base
material or a copy of it) or a remap material freshly created by
`apply_color_remaps` (its name and its node graph). -/
inductive Material where
  | host (m : HostMaterial) : Material
  | remap (name : String) (graph : Graph) : Material
deriving DecidableEq

/-- A mesh object: its name, its active material and its material slots. -/
structure MeshObject where
  name : String
  active_material : Option HostMaterial
  materials : List Material
deriving DecidableEq

/-- The image search of `apply_color_remaps` (lines 47–52): if the material
uses nodes, the image of the first node of type `TEX_IMAGE` that has an
image; otherwise `none`. -/
def findTexImage (m : HostMaterial) : Option ℕ :=
  if m.use_nodes then
    match m.nodes.find? (fun n => n.type == "TEX_IMAGE" && n.image.isSome) with
    | some n => n.image
    | none => none
  else none

/-- The image source the whole call works from: the image found in the base
object's active material, when the base object and its material exist. -/
def imageSourceOf (base_obj : Option MeshObject) : Option ℕ :=
  base_obj.bind fun b => b.active_material.bind findTexImage

/-- Result of a call to `apply_color_remaps`: the returned value (`none`
models Python's `None` failure return) and the two objects after the
call. -/
structure ApplyResult where
  mat : Option Material
  base : Option MeshObject
  variant : Option MeshObject
deriving DecidableEq

/-- `apply_color_remaps` (`color_remap.py` lines 24–127), statement by
statement: validate the two objects (line 38), the base material (line 42)
and the image source (lines 46–55), returning `None` on each failure
without touching either object; otherwise build the remap material's node
graph (lines 57–120), replace the variant's material slots by exactly the
new material (lines 122–124) and return it. -/
def apply_color_remaps (base_obj variant_obj : Option MeshObject)
    (remap_pairs : List (Color × Color)) (tolerance : ℚ) : ApplyResult :=
  match base_obj, variant_obj with
  | some b, some v =>
    match b.active_material with
    | none => ⟨none, base_obj, variant_obj⟩
    | some bm =>
      match findTexImage bm with
      | none => ⟨none, base_obj, variant_obj⟩
      | some img =>
        let remap_mat := Material.remap (v.name ++ "_RemapMaterial")
          (buildRemapGraph img remap_pairs tolerance)
        ⟨some remap_mat, base_obj, some { v with materials := [remap_mat] }⟩
  | _, _ => ⟨none, base_obj, variant_obj⟩

/-- Result of a call to `apply_multi_remap`: the two objects after the call
(the Python function returns `None` in every branch). -/
structure MultiResult where
  base : Option MeshObject
  variant : Option MeshObject
deriving DecidableEq

/-- `apply_multi_remap` (`multi_remap_controller.py` lines 26–55): if either
object is missing, do nothing; if the remap list is empty, copy the base
object's active material (when it has one) into the variant's material
slots; otherwise delegate to `apply_color_remaps`. -/
def apply_multi_remap (base_obj variant_obj : Option MeshObject)
    (remap_list : List (Color × Color)) (tolerance : ℚ) : MultiResult :=
  match base_obj, variant_obj with
  | some b, some v =>
    if remap_list.isEmpty then
      match b.active_material with
      | some bm => ⟨base_obj, some { v with materials := [Material.host bm] }⟩
      | none => ⟨base_obj, variant_obj⟩
    else
      let r := apply_color_remaps base_obj variant_obj remap_list tolerance
      ⟨r.base, r.variant⟩
  | _, _ => ⟨base_obj, variant_obj⟩

/-- Modelled from the spec: the observable color a material produces for a
given texture sample.  The base material (and any copy of it) exposes the
image texture directly, so its observable color is the sample itself
(spec §1: the base material is "a textured material exposing one image
texture"); a remap material's observable color is whatever its node graph
binds to the BSDF base-color input. -/
def materialColor (sqrt : ℚ → ℚ) (sample : Color) (fuel : ℕ) : Material → Option Color
  | Material.host m =>
    match findTexImage m with
    | some _ => some sample
    | none => none
  | Material.remap _ g => graphBaseColor sqrt sample g fuel

/-- A concrete square-root function for the closed instances below: it
returns the exact square root on each of the (perfect-square) squared
distances those instances produce, and 0 elsewhere (in particular
`sqrtQ 0 = 0`). -/
def sqrtQ (x : ℚ) : ℚ :=
  if x = 4 / 25 then 2 / 5
  else if x = 9 / 25 then 3 / 5
  else if x = 1 / 4 then 1 / 2
  else if x = 1 / 100 then 1 / 10
  else if x = 1 then 1
  else if x = 1 / 40000000000 then 1 / 200000
  else 0

/-- Concrete fixture: an image-texture node carrying image 0. -/
def texNodeW : HostNode := ⟨"TEX_IMAGE", some 0⟩

/-- Concrete fixture: a base material exposing one image texture. -/
def baseMatW : HostMaterial := ⟨true, [texNodeW]⟩

/-- Concrete fixture: a base object with the textured material. -/
def baseObjW : MeshObject := ⟨"Base", some baseMatW, [Material.host baseMatW]⟩

/-- Concrete fixture: a variant object that starts with two material
slots. -/
def variantObjW : MeshObject :=
  ⟨"Base_Variant", none, [Material.host baseMatW, Material.host baseMatW]⟩

/-! ## Structural lemmas about the built graphs -/

/-- `lerp` at factor 0 returns its first argument unchanged. -/
lemma lerp_zero (c t : Color) : lerp c t 0 = c := by
  cases c; cases t
  simp only [lerp, Color.add, Color.smul, Color.mk.injEq]
  refine ⟨by ring, by ring, by ring, by ring⟩

/-- `lerp` at factor 1 returns its second argument exactly. -/
lemma lerp_one (c t : Color) : lerp c t 1 = t := by
  cases c; cases t
  simp only [lerp, Color.add, Color.smul, Color.mk.injEq]
  refine ⟨by ring, by ring, by ring, by ring⟩

lemma Extends.trans {g1 g2 g3 : Graph} (h12 : Extends g1 g2) (h23 : Extends g2 g3) :
    Extends g1 g3 := by
  obtain ⟨ne, le, hn, hl, hd⟩ := h12
  obtain ⟨ne', le', hn', hl', hd'⟩ := h23
  refine ⟨ne ++ ne', le ++ le', by simp [hn', hn], by simp [hl', hl], ?_⟩
  intro l hml
  rcases List.mem_append.mp hml with h | h
  · exact hd l h
  · rcases hd' l h with h2 | h2
    · exact Or.inl h2
    · right
      have : g1.nodes.length ≤ g2.nodes.length := by
        rw [hn]; simp
      omega

lemma findLink_eq_none {ls : List Link} {n i : ℕ}
    (h : ∀ l ∈ ls, ¬(l.dstNode = n ∧ l.dstIn = i)) : findLink ls n i = none := by
  induction ls with
  | nil => rfl
  | cons a as ih =>
    simp only [findLink]
    rw [if_neg (h a (by simp))]
    exact ih fun l hl => h l (by simp [hl])

lemma findLink_append_left {l1 l2 : List Link} {n i : ℕ}
    (h : ∀ l ∈ l2, ¬(l.dstNode = n ∧ l.dstIn = i)) :
    findLink (l1 ++ l2) n i = findLink l1 n i := by
  induction l1 with
  | nil => simpa [findLink] using findLink_eq_none h
  | cons a as ih =>
    by_cases hc : a.dstNode = n ∧ a.dstIn = i
    · simp only [List.cons_append, findLink, if_pos hc]
    · simp only [List.cons_append, findLink, if_neg hc]
      exact ih

lemma findLink_append_right {l1 : List Link} (l2 : List Link) {n i : ℕ}
    (h : ∀ l ∈ l1, ¬(l.dstNode = n ∧ l.dstIn = i)) :
    findLink (l1 ++ l2) n i = findLink l2 n i := by
  induction l1 with
  | nil => rfl
  | cons a as ih =>
    simp only [List.cons_append, findLink]
    rw [if_neg (h a (by simp))]
    exact ih fun l hl => h l (by simp [hl])

lemma findLink_mem {ls : List Link} {n i : ℕ} {l : Link}
    (h : findLink ls n i = some l) : l ∈ ls := by
  induction ls with
  | nil => cases h
  | cons a as ih =>
    by_cases hc : a.dstNode = n ∧ a.dstIn = i
    · simp only [findLink, if_pos hc, Option.some.injEq] at h
      simp [h]
    · simp only [findLink, if_neg hc] at h
      exact List.mem_cons_of_mem _ (ih h)

/-- Frame lemma: extending a graph by fresh nodes, and by links that feed
only fresh nodes or the shading/output stage, does not change the
evaluation of any existing socket of a node at index ≥ 2. -/
lemma evalOut_extends (sqrt : ℚ → ℚ) (sample : Color) {g g' : Graph}
    (hwf : GraphWF g) (hx : Extends g g') :
    ∀ fuel n o, 2 ≤ n → n < g.nodes.length →
      evalOut sqrt sample g' fuel n o = evalOut sqrt sample g fuel n o := by
  obtain ⟨ne, le, hn, hl, hd⟩ := hx
  intro fuel
  induction fuel with
  | zero => intro n o _ _; rfl
  | succ fuel ih =>
    intro n o h2 hlt
    simp only [evalOut]
    have hg : g'.nodes[n]? = g.nodes[n]? := by
      rw [hn]; exact List.getElem?_append_left hlt
    rw [hg]
    congr 1
    funext i dflt
    have hfl : findLink g'.links n i = findLink g.links n i := by
      rw [hl]
      apply findLink_append_left
      intro l hml hc
      rcases hd l hml with h01 | hge <;> omega
    rw [hfl]
    cases hq : findLink g.links n i with
    | none => rfl
    | some l =>
      obtain ⟨hs2, hslt, -, -⟩ := hwf l (findLink_mem hq)
      exact ih l.srcNode l.srcOut hs2 hslt

/-- One pass of the remap loop, analysed socket by socket: in the extended
graph the pair's `dist` node outputs the 4-channel Euclidean distance from
the running color to the pair's source, and the pair's `mix` node outputs
the spec's one-pair blend `remapStep`. -/
lemma addPairNodes_spec (sqrt : ℚ → ℚ) (sample : Color) (g : Graph) (s : ℕ × ℕ)
    (c : Color) (tol : ℚ) (p : Color × Color) (F0 : ℕ) (hF0 : 1 ≤ F0)
    (hwf : GraphWF g) (hs2 : 2 ≤ s.1) (hslt : s.1 < g.nodes.length)
    (heval : ∀ f, F0 ≤ f → evalOut sqrt sample g f s.1 s.2 = some (Value.color c)) :
    GraphWF (addPairNodes g s tol p).1 ∧
    (addPairNodes g s tol p).2 = (g.nodes.length + 6, 0) ∧
    (addPairNodes g s tol p).1.nodes.length = g.nodes.length + 7 ∧
    Extends g (addPairNodes g s tol p).1 ∧
    (∀ f, F0 + 1 ≤ f →
      evalOut sqrt sample (addPairNodes g s tol p).1 f (g.nodes.length + 2) 0
        = some (Value.scalar (sqrt (distSq c p.1)))) ∧
    (∀ f, F0 + 5 ≤ f →
      evalOut sqrt sample (addPairNodes g s tol p).1 f (g.nodes.length + 6) 0
        = some (Value.color (remapStep sqrt tol c p))) := by
  have hL3 : 3 ≤ g.nodes.length := by omega
  set L := g.nodes.length with hL
  set G1 : Graph := ⟨g.nodes ++ pairNodes tol p, g.links ++ pairLinks s L⟩ with hG1
  have hfst : (addPairNodes g s tol p).1 = G1 := rfl
  have hlen1 : G1.nodes.length = L + 7 := by
    rw [hG1]; simp [pairNodes]
  -- node lookups in the extended graph
  have hget0 : (g.nodes ++ pairNodes tol p)[L]? = some (NodeKind.rgb p.1) := by
    rw [List.getElem?_append_right (by omega)]
    simp [pairNodes, Nat.sub_self]
  have hget1 : (g.nodes ++ pairNodes tol p)[L + 1]? = some (NodeKind.rgb p.2) := by
    rw [List.getElem?_append_right (by omega)]
    simp [pairNodes, Nat.add_sub_cancel_left]
  have hget2 : (g.nodes ++ pairNodes tol p)[L + 2]? = some NodeKind.vectorMathDistance := by
    rw [List.getElem?_append_right (by omega)]
    simp [pairNodes, Nat.add_sub_cancel_left]
  have hget3 : (g.nodes ++ pairNodes tol p)[L + 3]?
      = some (NodeKind.mathDivide (max tol (1 / 100000))) := by
    rw [List.getElem?_append_right (by omega)]
    simp [pairNodes, Nat.add_sub_cancel_left]
  have hget4 : (g.nodes ++ pairNodes tol p)[L + 4]? = some (NodeKind.mathSubtract 1) := by
    rw [List.getElem?_append_right (by omega)]
    simp [pairNodes, Nat.add_sub_cancel_left]
  have hget5 : (g.nodes ++ pairNodes tol p)[L + 5]? = some NodeKind.clampNode := by
    rw [List.getElem?_append_right (by omega)]
    simp [pairNodes, Nat.add_sub_cancel_left]
  have hget6 : (g.nodes ++ pairNodes tol p)[L + 6]? = some NodeKind.mixRGB := by
    rw [List.getElem?_append_right (by omega)]
    simp [pairNodes, Nat.add_sub_cancel_left]
  -- link lookups: destinations at indices ≥ L are resolved in `pairLinks`
  have hskip : ∀ n i : ℕ, L ≤ n →
      findLink (g.links ++ pairLinks s L) n i = findLink (pairLinks s L) n i := by
    intro n i hn
    apply findLink_append_right
    intro l hml hc
    have := (hwf l hml).2.2.2
    omega
  have q1 : findLink (pairLinks s L) (L + 2) 0 = some ⟨s.1, s.2, L + 2, 0⟩ := by
    simp [pairLinks, findLink, add_right_inj]
  have q2 : findLink (pairLinks s L) (L + 2) 1 = some ⟨L, 0, L + 2, 1⟩ := by
    simp [pairLinks, findLink, add_right_inj]
  have q3 : findLink (pairLinks s L) (L + 3) 0 = some ⟨L + 2, 0, L + 3, 0⟩ := by
    simp [pairLinks, findLink, add_right_inj]
  have q4 : findLink (pairLinks s L) (L + 3) 1 = none := by
    simp [pairLinks, findLink, add_right_inj]
  have q5 : findLink (pairLinks s L) (L + 4) 1 = some ⟨L + 3, 0, L + 4, 1⟩ := by
    simp [pairLinks, findLink, add_right_inj]
  have q6 : findLink (pairLinks s L) (L + 4) 0 = none := by
    simp [pairLinks, findLink, add_right_inj]
  have q7 : findLink (pairLinks s L) (L + 5) 0 = some ⟨L + 4, 0, L + 5, 0⟩ := by
    simp [pairLinks, findLink, add_right_inj]
  have q8 : findLink (pairLinks s L) (L + 5) 1 = none := by
    simp [pairLinks, findLink, add_right_inj]
  have q9 : findLink (pairLinks s L) (L + 5) 2 = none := by
    simp [pairLinks, findLink, add_right_inj]
  have q10 : findLink (pairLinks s L) (L + 6) 0 = some ⟨L + 5, 0, L + 6, 0⟩ := by
    simp [pairLinks, findLink, add_right_inj]
  have q11 : findLink (pairLinks s L) (L + 6) 1 = some ⟨s.1, s.2, L + 6, 1⟩ := by
    simp [pairLinks, findLink, add_right_inj]
  have q12 : findLink (pairLinks s L) (L + 6) 2 = some ⟨L + 1, 0, L + 6, 2⟩ := by
    simp [pairLinks, findLink, add_right_inj]
  -- well-formedness and extension
  have hwf1 : GraphWF G1 := by
    intro l hml
    rw [hG1] at hml
    rw [hlen1]
    rcases List.mem_append.mp hml with h | h
    · obtain ⟨a, b, c', d⟩ := hwf l h
      exact ⟨a, by omega, by omega, by omega⟩
    · simp only [pairLinks, List.mem_cons, List.not_mem_nil, or_false] at h
      rcases h with rfl | rfl | rfl | rfl | rfl | rfl | rfl | rfl <;> simp <;> omega
  have hext : Extends g G1 := by
    refine ⟨pairNodes tol p, pairLinks s L, rfl, rfl, ?_⟩
    intro l hml
    simp only [pairLinks, List.mem_cons, List.not_mem_nil, or_false] at hml
    rcases hml with rfl | rfl | rfl | rfl | rfl | rfl | rfl | rfl <;> simp
  -- socket-by-socket evaluation, bottom-up
  have hrgb1 : ∀ f, 1 ≤ f → evalOut sqrt sample G1 f L 0 = some (Value.color p.1) := by
    intro f hf
    obtain ⟨f', rfl⟩ : ∃ m, f = m + 1 := ⟨f - 1, by omega⟩
    simp only [evalOut]
    rw [hget0]
    simp [pairNodes, evalNode]
  have hrgb2 : ∀ f, 1 ≤ f → evalOut sqrt sample G1 f (L + 1) 0 = some (Value.color p.2) := by
    intro f hf
    obtain ⟨f', rfl⟩ : ∃ m, f = m + 1 := ⟨f - 1, by omega⟩
    simp only [evalOut]
    rw [hget1]
    simp [pairNodes, evalNode]
  have hlast : ∀ f, F0 ≤ f → evalOut sqrt sample G1 f s.1 s.2 = some (Value.color c) := by
    intro f hf
    rw [evalOut_extends sqrt sample hwf hext f s.1 s.2 hs2 hslt]
    exact heval f hf
  have hdist : ∀ f, F0 + 1 ≤ f →
      evalOut sqrt sample G1 f (L + 2) 0 = some (Value.scalar (sqrt (distSq c p.1))) := by
    intro f hf
    obtain ⟨f', rfl⟩ : ∃ m, f = m + 1 := ⟨f - 1, by omega⟩
    simp only [evalOut]
    rw [hget2]
    simp only [pairNodes, evalNode]
    rw [hskip (L + 2) 0 (by omega), hskip (L + 2) 1 (by omega), q1, q2]
    simp only []
    rw [hlast f' (by omega), hrgb1 f' (by omega)]
  have hdiv : ∀ f, F0 + 2 ≤ f →
      evalOut sqrt sample G1 f (L + 3) 0
        = some (Value.scalar (sqrt (distSq c p.1) / max tol (1 / 100000))) := by
    intro f hf
    obtain ⟨f', rfl⟩ : ∃ m, f = m + 1 := ⟨f - 1, by omega⟩
    simp only [evalOut]
    rw [hget3]
    simp only [pairNodes, evalNode]
    rw [hskip (L + 3) 0 (by omega), hskip (L + 3) 1 (by omega), q3, q4]
    simp only []
    rw [hdist f' (by omega)]
  have hsub : ∀ f, F0 + 3 ≤ f →
      evalOut sqrt sample G1 f (L + 4) 0
        = some (Value.scalar (1 - sqrt (distSq c p.1) / max tol (1 / 100000))) := by
    intro f hf
    obtain ⟨f', rfl⟩ : ∃ m, f = m + 1 := ⟨f - 1, by omega⟩
    simp only [evalOut]
    rw [hget4]
    simp only [pairNodes, evalNode]
    rw [hskip (L + 4) 0 (by omega), hskip (L + 4) 1 (by omega), q6, q5]
    simp only []
    rw [hdiv f' (by omega)]
  have hclamp : ∀ f, F0 + 4 ≤ f →
      evalOut sqrt sample G1 f (L + 5) 0
        = some (Value.scalar (blendFactor sqrt tol c p.1)) := by
    intro f hf
    obtain ⟨f', rfl⟩ : ∃ m, f = m + 1 := ⟨f - 1, by omega⟩
    simp only [evalOut]
    rw [hget5]
    simp only [pairNodes, evalNode]
    rw [hskip (L + 5) 0 (by omega), hskip (L + 5) 1 (by omega), hskip (L + 5) 2 (by omega),
      q7, q8, q9]
    simp only []
    rw [hsub f' (by omega)]
    rfl
  have hmix : ∀ f, F0 + 5 ≤ f →
      evalOut sqrt sample G1 f (L + 6) 0
        = some (Value.color (remapStep sqrt tol c p)) := by
    intro f hf
    obtain ⟨f', rfl⟩ : ∃ m, f = m + 1 := ⟨f - 1, by omega⟩
    simp only [evalOut]
    rw [hget6]
    simp only [pairNodes, evalNode]
    rw [hskip (L + 6) 0 (by omega), hskip (L + 6) 1 (by omega), hskip (L + 6) 2 (by omega),
      q10, q11, q12]
    simp only []
    rw [hclamp f' (by omega), hlast f' (by omega), hrgb2 f' (by omega)]
    rfl
  rw [hfst]
  exact ⟨hwf1, rfl, hlen1, hext, hdist, hmix⟩

/-- Invariant of the remap loop: starting from a well-formed graph whose
running socket evaluates to `c`, folding the pairs produces a well-formed
extension whose running socket evaluates to the reference chain
`remapChain` applied to `c`, at any fuel ≥ `F0 + 5·N`. -/
lemma remapLoop_spec (sqrt : ℚ → ℚ) (sample : Color) (tol : ℚ) :
    ∀ (ps : List (Color × Color)) (g : Graph) (s : ℕ × ℕ) (c : Color) (F0 : ℕ),
      1 ≤ F0 → GraphWF g → 2 ≤ s.1 → s.1 < g.nodes.length →
      (∀ f, F0 ≤ f → evalOut sqrt sample g f s.1 s.2 = some (Value.color c)) →
      GraphWF (remapLoop tol (g, s) ps).1 ∧
      2 ≤ (remapLoop tol (g, s) ps).2.1 ∧
      (remapLoop tol (g, s) ps).2.1 < (remapLoop tol (g, s) ps).1.nodes.length ∧
      (remapLoop tol (g, s) ps).1.nodes.length = g.nodes.length + 7 * ps.length ∧
      Extends g (remapLoop tol (g, s) ps).1 ∧
      (∀ f, F0 + 5 * ps.length ≤ f →
        evalOut sqrt sample (remapLoop tol (g, s) ps).1 f
            (remapLoop tol (g, s) ps).2.1 (remapLoop tol (g, s) ps).2.2
          = some (Value.color (remapChain sqrt tol c ps))) := by
  intro ps
  induction ps with
  | nil =>
    intro g s c F0 hF0 hwf hs2 hslt heval
    refine ⟨hwf, hs2, hslt, by simp [remapLoop], ?_, ?_⟩
    · exact ⟨[], [], by simp [remapLoop], by simp [remapLoop], by simp⟩
    · intro f hf
      simpa [remapLoop, remapChain] using heval f (by omega)
  | cons p ps ih =>
    intro g s c F0 hF0 hwf hs2 hslt heval
    obtain ⟨hwf1, hs1, hlen1, hext1, -, hmix⟩ :=
      addPairNodes_spec sqrt sample g s c tol p F0 hF0 hwf hs2 hslt heval
    have hstep : remapLoop tol (g, s) (p :: ps)
        = remapLoop tol (addPairNodes g s tol p) ps := rfl
    have heval1 : ∀ f, F0 + 5 ≤ f →
        evalOut sqrt sample (addPairNodes g s tol p).1 f
            (addPairNodes g s tol p).2.1 (addPairNodes g s tol p).2.2
          = some (Value.color (remapStep sqrt tol c p)) := by
      intro f hf
      rw [hs1]
      exact hmix f hf
    obtain ⟨h1, h2, h3, h4, h5, h6⟩ :=
      ih (addPairNodes g s tol p).1 (addPairNodes g s tol p).2 (remapStep sqrt tol c p)
        (F0 + 5) (by omega) hwf1 (by rw [hs1]; omega)
        (by rw [hs1, hlen1]; omega) heval1
    rw [hstep]
    refine ⟨h1, h2, h3, ?_, Extends.trans hext1 h5, ?_⟩
    · rw [h4, hlen1]
      simp only [List.length_cons]
      omega
    · intro f hf
      simp only [List.length_cons] at hf
      rw [show remapChain sqrt tol c (p :: ps)
          = remapChain sqrt tol (remapStep sqrt tol c p) ps from rfl]
      exact h6 f (by omega)

/-- End to end: the color the built graph binds to the BSDF base-color
input is the N-fold chained blend `remapChain` of the sampled color, for
any fuel ≥ 5·N + 1. -/
lemma buildRemapGraph_eval (sqrt : ℚ → ℚ) (image : ℕ) (ps : List (Color × Color))
    (tol : ℚ) (sample : Color) (fuel : ℕ) (hfuel : 5 * ps.length + 1 ≤ fuel) :
    graphBaseColor sqrt sample (buildRemapGraph image ps tol) fuel
      = some (remapChain sqrt tol sample ps) := by
  have hwf0 : GraphWF (⟨[NodeKind.outputMaterial, NodeKind.bsdfPrincipled,
      NodeKind.texImage image], []⟩ : Graph) := by
    intro l hml
    exact absurd hml (List.not_mem_nil l)
  have heval0 : ∀ f, 1 ≤ f →
      evalOut sqrt sample (⟨[NodeKind.outputMaterial, NodeKind.bsdfPrincipled,
        NodeKind.texImage image], []⟩ : Graph) f 2 0 = some (Value.color sample) := by
    intro f hf
    obtain ⟨f', rfl⟩ : ∃ m, f = m + 1 := ⟨f - 1, by omega⟩
    simp [evalOut, evalNode]
  obtain ⟨hwfL, hsl2, hsllt, hlenL, hextL, hevalL⟩ :=
    remapLoop_spec sqrt sample tol ps
      ⟨[NodeKind.outputMaterial, NodeKind.bsdfPrincipled, NodeKind.texImage image], []⟩
      (2, 0) sample 1 le_rfl hwf0 (le_refl 2) (by norm_num) heval0
  set gl := (remapLoop tol
      (⟨[NodeKind.outputMaterial, NodeKind.bsdfPrincipled, NodeKind.texImage image], []⟩,
       (2, 0)) ps) with hgl
  have hbuild : buildRemapGraph image ps tol
      = ⟨gl.1.nodes, gl.1.links ++ [⟨gl.2.1, gl.2.2, 1, 0⟩, ⟨1, 0, 0, 0⟩]⟩ := rfl
  have hfind : findLink (gl.1.links ++ [⟨gl.2.1, gl.2.2, 1, 0⟩, ⟨1, 0, 0, 0⟩]) 1 0
      = some ⟨gl.2.1, gl.2.2, 1, 0⟩ := by
    rw [findLink_append_right _ (fun l hml hc => by
      have := (hwfL l hml).2.2.1
      omega)]
    simp [findLink]
  have hextG : Extends gl.1 ⟨gl.1.nodes, gl.1.links ++ [⟨gl.2.1, gl.2.2, 1, 0⟩, ⟨1, 0, 0, 0⟩]⟩ := by
    refine ⟨[], [⟨gl.2.1, gl.2.2, 1, 0⟩, ⟨1, 0, 0, 0⟩], by simp, rfl, ?_⟩
    intro l hml
    fin_cases hml <;> simp
  rw [hbuild]
  have hev : evalOut sqrt sample
      (⟨gl.1.nodes, gl.1.links ++ [⟨gl.2.1, gl.2.2, 1, 0⟩, ⟨1, 0, 0, 0⟩]⟩ : Graph)
      fuel gl.2.1 gl.2.2 = some (Value.color (remapChain sqrt tol sample ps)) := by
    rw [evalOut_extends sqrt sample hwfL hextG fuel gl.2.1 gl.2.2 hsl2 hsllt]
    exact hevalL fuel (by omega)
  simp only [graphBaseColor, hfind, hev]

/-- The `dist` node of pair `i` (node index `7i + 5` in the built graph)
outputs `sqrt` of the 4-channel squared Euclidean distance between the
running color after the first `i` pairs and pair `i`'s source color. -/
lemma buildRemapGraph_dist_eval (sqrt : ℚ → ℚ) (image : ℕ) (ps : List (Color × Color))
    (tol : ℚ) (sample : Color) (i : ℕ) (hi : i < ps.length) (fuel : ℕ)
    (hfuel : 5 * i + 2 ≤ fuel) :
    evalOut sqrt sample (buildRemapGraph image ps tol) fuel (7 * i + 5) 0
      = some (Value.scalar (sqrt (distSq (remapChain sqrt tol sample (ps.take i))
          (ps.get ⟨i, hi⟩).1))) := by
  have hwf0 : GraphWF (⟨[NodeKind.outputMaterial, NodeKind.bsdfPrincipled,
      NodeKind.texImage image], []⟩ : Graph) := by
    intro l hml
    exact absurd hml (List.not_mem_nil l)
  have heval0 : ∀ f, 1 ≤ f →
      evalOut sqrt sample (⟨[NodeKind.outputMaterial, NodeKind.bsdfPrincipled,
        NodeKind.texImage image], []⟩ : Graph) f 2 0 = some (Value.color sample) := by
    intro f hf
    obtain ⟨f', rfl⟩ : ∃ m, f = m + 1 := ⟨f - 1, by omega⟩
    simp [evalOut, evalNode]
  -- the loop over the first i pairs
  obtain ⟨hwfI, hsI2, hsIlt, hlenI, -, hevalI⟩ :=
    remapLoop_spec sqrt sample tol (ps.take i)
      ⟨[NodeKind.outputMaterial, NodeKind.bsdfPrincipled, NodeKind.texImage image], []⟩
      (2, 0) sample 1 le_rfl hwf0 (le_refl 2) (by norm_num) heval0
  set gI := (remapLoop tol
      (⟨[NodeKind.outputMaterial, NodeKind.bsdfPrincipled, NodeKind.texImage image], []⟩,
       (2, 0)) (ps.take i)) with hgI
  have htake : (ps.take i).length = i := by
    simp [List.length_take]
    omega
  have hlenI3 : gI.1.nodes.length = 3 + 7 * i := by
    rw [hlenI, htake]
    norm_num
  -- pair i itself
  obtain ⟨hwfA, hsA, hlenA, hextA, hdistA, hmixA⟩ :=
    addPairNodes_spec sqrt sample gI.1 gI.2 (remapChain sqrt tol sample (ps.take i)) tol
      (ps.get ⟨i, hi⟩) (1 + 5 * i) (by omega) hwfI hsI2 hsIlt
      (by
        intro f hf
        exact hevalI f (by rw [htake]; omega))
  -- the loop over the remaining pairs, and the two final links
  obtain ⟨-, -, -, -, hextR, -⟩ :=
    remapLoop_spec sqrt sample tol (ps.drop (i + 1))
      (addPairNodes gI.1 gI.2 tol (ps.get ⟨i, hi⟩)).1
      (addPairNodes gI.1 gI.2 tol (ps.get ⟨i, hi⟩)).2
      (remapStep sqrt tol (remapChain sqrt tol sample (ps.take i)) (ps.get ⟨i, hi⟩))
      (1 + 5 * i + 5) (by omega) hwfA (by rw [hsA]; omega)
      (by rw [hsA, hlenA]; omega)
      (by
        intro f hf
        rw [hsA]
        exact hmixA f (by omega))
  have hps : ps = ps.take i ++ ps.get ⟨i, hi⟩ :: ps.drop (i + 1) := by
    conv_lhs => rw [← List.take_append_drop i ps]
    rw [List.get_cons_drop]
  have hloopdec : remapLoop tol
      (⟨[NodeKind.outputMaterial, NodeKind.bsdfPrincipled, NodeKind.texImage image], []⟩,
       (2, 0)) ps
      = remapLoop tol (addPairNodes gI.1 gI.2 tol (ps.get ⟨i, hi⟩)) (ps.drop (i + 1)) := by
    conv_lhs => rw [hps]
    rw [hgI]
    simp only [remapLoop, List.foldl_append, List.foldl_cons]
  set gl := (remapLoop tol
      (⟨[NodeKind.outputMaterial, NodeKind.bsdfPrincipled, NodeKind.texImage image], []⟩,
       (2, 0)) ps) with hgl
  have hwfL : GraphWF gl.1 := by
    obtain ⟨h, -, -, -, -, -⟩ :=
      remapLoop_spec sqrt sample tol ps
        ⟨[NodeKind.outputMaterial, NodeKind.bsdfPrincipled, NodeKind.texImage image], []⟩
        (2, 0) sample 1 le_rfl hwf0 (le_refl 2) (by norm_num) heval0
    exact h
  have hbuild : buildRemapGraph image ps tol
      = ⟨gl.1.nodes, gl.1.links ++ [⟨gl.2.1, gl.2.2, 1, 0⟩, ⟨1, 0, 0, 0⟩]⟩ := rfl
  have hextG : Extends gl.1 ⟨gl.1.nodes, gl.1.links ++ [⟨gl.2.1, gl.2.2, 1, 0⟩, ⟨1, 0, 0, 0⟩]⟩ := by
    refine ⟨[], [⟨gl.2.1, gl.2.2, 1, 0⟩, ⟨1, 0, 0, 0⟩], by simp, rfl, ?_⟩
    intro l hml
    fin_cases hml <;> simp
  have hextAG : Extends (addPairNodes gI.1 gI.2 tol (ps.get ⟨i, hi⟩)).1
      ⟨gl.1.nodes, gl.1.links ++ [⟨gl.2.1, gl.2.2, 1, 0⟩, ⟨1, 0, 0, 0⟩]⟩ := by
    refine Extends.trans ?_ hextG
    rw [hloopdec]
    exact hextR
  rw [hbuild]
  rw [evalOut_extends sqrt sample hwfA hextAG fuel (7 * i + 5) 0 (by omega) (by omega)]
  have hidx : 7 * i + 5 = gI.1.nodes.length + 2 := by omega
  rw [hidx]
  exact hdistA fuel (by omega)

/-! ## The claims -/

/-- C1: for every remap chain of N pairs and every sampled input color
`c0`, the graph built by `apply_color_remaps` computes the N-fold chained
blend: with `current_0 = c0`, each pair in list order updates
`current` by `lerp current target (clamp (1 - distance current source /
max tolerance 1e-5) 0 1)` (see `remapStep`/`blendFactor`), and the final
`current_N` is the color bound to the shading stage's base-color input;
each pair's blending reads the output of the previous pair, not the
original texture sample. -/
theorem remap_chain_blend (sqrt : ℚ → ℚ) (image : ℕ) (pairs : List (Color × Color))
    (tolerance : ℚ) (c0 : Color) (fuel : ℕ) (hfuel : 5 * pairs.length + 1 ≤ fuel) :
    graphBaseColor sqrt c0 (buildRemapGraph image pairs tolerance) fuel
      = some (remapChain sqrt tolerance c0 pairs) :=
  buildRemapGraph_eval sqrt image pairs tolerance c0 fuel hfuel

/-- Witness for C1 at a one-pair chain. -/
theorem remap_chain_blend_witness :
    5 * 1 + 1 ≤ 6 ∧
    graphBaseColor sqrtQ ⟨1, 4 / 5, 0, 1⟩
        (buildRemapGraph 0 [(⟨1, 4 / 5, 0, 1⟩, ⟨0, 1 / 5, 1, 1⟩)] (1 / 10)) 6
      = some (remapChain sqrtQ (1 / 10) ⟨1, 4 / 5, 0, 1⟩
          [(⟨1, 4 / 5, 0, 1⟩, ⟨0, 1 / 5, 1, 1⟩)]) :=
  ⟨by norm_num,
   remap_chain_blend sqrtQ 0 [(⟨1, 4 / 5, 0, 1⟩, ⟨0, 1 / 5, 1, 1⟩)] (1 / 10)
     ⟨1, 4 / 5, 0, 1⟩ 6 (by norm_num)⟩

/-- C3: for a single pair `(S, T)` and any tolerance ≥ ε = 1e-5, a sampled
color exactly equal to `S` (distance 0) yields output exactly `T` (blend
factor 1, full replacement). -/
theorem exact_match_replaces (sqrt : ℚ → ℚ) (S T : Color) (tolerance : ℚ)
    (image fuel : ℕ) (hsqrt : sqrt 0 = 0) (_htol : 1 / 100000 ≤ tolerance)
    (hfuel : 6 ≤ fuel) :
    graphBaseColor sqrt S (buildRemapGraph image [(S, T)] tolerance) fuel = some T := by
  rw [buildRemapGraph_eval sqrt image [(S, T)] tolerance S fuel (by simpa using hfuel)]
  have hchain : remapChain sqrt tolerance S [(S, T)] = remapStep sqrt tolerance S (S, T) := rfl
  rw [hchain]
  unfold remapStep blendFactor
  rw [show distSq S S = 0 by unfold distSq; ring, hsqrt, zero_div]
  norm_num
  exact lerp_one S T

/-- Witness for C3 at the spec's scenario: remapping yellow to blue. -/
theorem exact_match_replaces_witness :
    (sqrtQ 0 = 0 ∧ (1 / 100000 : ℚ) ≤ 1 / 10 ∧ 6 ≤ 6) ∧
    graphBaseColor sqrtQ ⟨1, 4 / 5, 0, 1⟩
        (buildRemapGraph 0 [(⟨1, 4 / 5, 0, 1⟩, ⟨0, 1 / 5, 1, 1⟩)] (1 / 10)) 6
      = some ⟨0, 1 / 5, 1, 1⟩ :=
  ⟨⟨by norm_num [sqrtQ], by norm_num, le_rfl⟩,
   exact_match_replaces sqrtQ ⟨1, 4 / 5, 0, 1⟩ ⟨0, 1 / 5, 1, 1⟩ (1 / 10) 0 6
     (by norm_num [sqrtQ]) (by norm_num) le_rfl⟩

/-- C4 counterexample: with `tolerance = 0` the claim fails.  The divisor
is coerced to ε = 1e-5, so a sample at distance 1/200000 from the source —
strictly more than the tolerance 0 — is still blended halfway toward the
target instead of being left unchanged. -/
theorem far_sample_zero_tolerance_cx :
    (0 : ℚ) < sqrtQ (distSq ⟨1 / 200000, 0, 0, 1⟩ ⟨0, 0, 0, 1⟩) ∧
    graphBaseColor sqrtQ ⟨1 / 200000, 0, 0, 1⟩
        (buildRemapGraph 0 [(⟨0, 0, 0, 1⟩, ⟨1, 1, 1, 1⟩)] 0) 6
      = some ⟨200001 / 400000, 1 / 2, 1 / 2, 1⟩ ∧
    some (⟨200001 / 400000, 1 / 2, 1 / 2, 1⟩ : Color)
      ≠ some (⟨1 / 200000, 0, 0, 1⟩ : Color) := by
  refine ⟨by norm_num [sqrtQ, distSq], ?_, by simp [Color.mk.injEq]⟩
  norm_num [graphBaseColor, buildRemapGraph, remapLoop, addPairNodes, pairNodes, pairLinks,
    evalOut, evalNode, findLink, distSq, lerp, Color.add, Color.smul, sqrtQ, min_def, max_def]

/-- C4 amended: for a single pair `(S, T)` and tolerance ≥ ε = 1e-5, a
sampled color at distance at least the tolerance from `S` is output
unchanged (blend factor 0). -/
theorem far_sample_unchanged (sqrt : ℚ → ℚ) (S T c0 : Color) (tolerance : ℚ)
    (image fuel : ℕ) (htol : 1 / 100000 ≤ tolerance)
    (hd : tolerance ≤ sqrt (distSq c0 S)) (hfuel : 6 ≤ fuel) :
    graphBaseColor sqrt c0 (buildRemapGraph image [(S, T)] tolerance) fuel = some c0 := by
  rw [buildRemapGraph_eval sqrt image [(S, T)] tolerance c0 fuel (by simpa using hfuel)]
  have hchain : remapChain sqrt tolerance c0 [(S, T)]
      = remapStep sqrt tolerance c0 (S, T) := rfl
  rw [hchain]
  unfold remapStep blendFactor
  rw [max_eq_left htol]
  have htol0 : 0 < tolerance := lt_of_lt_of_le (by norm_num) htol
  have h1 : 1 ≤ sqrt (distSq c0 S) / tolerance := (one_le_div htol0).mpr hd
  rw [show max (1 - sqrt (distSq c0 S) / tolerance) 0 = 0 from max_eq_right (by linarith),
    show min (0 : ℚ) 1 = 0 from min_eq_left (by norm_num)]
  exact congrArg some (lerp_zero c0 T)

/-- Witness for C4 as amended: the spec's far sample `(0,0,0,1)` against
source `(3/5,4/5,0,1)` at distance 1 ≥ tolerance 1/10 is unchanged. -/
theorem far_sample_unchanged_witness :
    ((1 / 100000 : ℚ) ≤ 1 / 10 ∧
      (1 / 10 : ℚ) ≤ sqrtQ (distSq ⟨0, 0, 0, 1⟩ ⟨3 / 5, 4 / 5, 0, 1⟩) ∧ 6 ≤ 6) ∧
    graphBaseColor sqrtQ ⟨0, 0, 0, 1⟩
        (buildRemapGraph 0 [(⟨3 / 5, 4 / 5, 0, 1⟩, ⟨0, 1 / 5, 1, 1⟩)] (1 / 10)) 6
      = some ⟨0, 0, 0, 1⟩ :=
  ⟨⟨by norm_num, by norm_num [sqrtQ, distSq], le_rfl⟩,
   far_sample_unchanged sqrtQ ⟨3 / 5, 4 / 5, 0, 1⟩ ⟨0, 1 / 5, 1, 1⟩ ⟨0, 0, 0, 1⟩ (1 / 10) 0 6
     (by norm_num) (by norm_num [sqrtQ, distSq]) le_rfl⟩

/-- C5 counterexample: with `tolerance = 0` the claim fails.  A sample
exactly at the source color has distance `0 = tolerance/2`, yet the output
is the full target (the divisor was coerced to ε), not the 50/50
midpoint. -/
theorem midpoint_zero_tolerance_cx :
    sqrtQ (distSq ⟨0, 0, 0, 1⟩ ⟨0, 0, 0, 1⟩) = 0 / 2 ∧
    graphBaseColor sqrtQ ⟨0, 0, 0, 1⟩
        (buildRemapGraph 0 [(⟨0, 0, 0, 1⟩, ⟨1, 1, 1, 1⟩)] 0) 6
      = some ⟨1, 1, 1, 1⟩ ∧
    some (⟨1, 1, 1, 1⟩ : Color)
      ≠ some (Color.add (Color.smul (1 / 2) ⟨0, 0, 0, 1⟩)
          (Color.smul (1 / 2) ⟨1, 1, 1, 1⟩)) := by
  refine ⟨by norm_num [sqrtQ, distSq], ?_, by simp [Color.add, Color.smul]⟩
  norm_num [graphBaseColor, buildRemapGraph, remapLoop, addPairNodes, pairNodes, pairLinks,
    evalOut, evalNode, findLink, distSq, lerp, Color.add, Color.smul, sqrtQ, min_def, max_def]

/-- C5 amended: for a single pair `(S, T)` and tolerance ≥ ε = 1e-5, a
sampled color at distance exactly half the tolerance from `S` yields
exactly `0.5·input + 0.5·T` (blend factor exactly one half). -/
theorem midpoint_half_blend (sqrt : ℚ → ℚ) (S T c0 : Color) (tolerance : ℚ)
    (image fuel : ℕ) (htol : 1 / 100000 ≤ tolerance)
    (hd : sqrt (distSq c0 S) = tolerance / 2) (hfuel : 6 ≤ fuel) :
    graphBaseColor sqrt c0 (buildRemapGraph image [(S, T)] tolerance) fuel
      = some (Color.add (Color.smul (1 / 2) c0) (Color.smul (1 / 2) T)) := by
  rw [buildRemapGraph_eval sqrt image [(S, T)] tolerance c0 fuel (by simpa using hfuel)]
  have hchain : remapChain sqrt tolerance c0 [(S, T)]
      = remapStep sqrt tolerance c0 (S, T) := rfl
  rw [hchain]
  unfold remapStep blendFactor
  have htol0 : (0 : ℚ) < tolerance := lt_of_lt_of_le (by norm_num) htol
  have hhalf : tolerance / 2 / tolerance = 1 / 2 := by
    rw [div_div, mul_comm 2 tolerance, ← div_div, div_self htol0.ne', one_div]
  rw [max_eq_left htol, hd, hhalf,
    show min (max (1 - (1 : ℚ) / 2) 0) 1 = 1 / 2 by norm_num [max_def, min_def]]
  refine congrArg some ?_
  cases c0; cases T
  simp only [lerp, Color.add, Color.smul, Color.mk.injEq]
  refine ⟨by ring, by ring, by ring, by ring⟩

/-- Witness for C5 as amended: a sample at distance 1/10 from the source
with tolerance 1/5 blends to the exact midpoint. -/
theorem midpoint_half_blend_witness :
    ((1 / 100000 : ℚ) ≤ 1 / 5 ∧
      sqrtQ (distSq ⟨1 / 10, 0, 0, 1⟩ ⟨0, 0, 0, 1⟩) = (1 / 5) / 2 ∧ 6 ≤ 6) ∧
    graphBaseColor sqrtQ ⟨1 / 10, 0, 0, 1⟩
        (buildRemapGraph 0 [(⟨0, 0, 0, 1⟩, ⟨1, 1, 1, 1⟩)] (1 / 5)) 6
      = some (Color.add (Color.smul (1 / 2) ⟨1 / 10, 0, 0, 1⟩)
          (Color.smul (1 / 2) ⟨1, 1, 1, 1⟩)) :=
  ⟨⟨by norm_num, by norm_num [sqrtQ, distSq], le_rfl⟩,
   midpoint_half_blend sqrtQ ⟨0, 0, 0, 1⟩ ⟨1, 1, 1, 1⟩ ⟨1 / 10, 0, 0, 1⟩ (1 / 5) 0 6
     (by norm_num) (by norm_num [sqrtQ, distSq]) le_rfl⟩

/-- C8: for every tolerance ≤ 0, graph construction raises no error and is
not a failure: the divisor is coerced to `max tolerance 1e-5`, so the built
graph is *equal*, node for node and link for link, to the graph built with
tolerance 1e-5. -/
theorem tolerance_coerced (image : ℕ) (pairs : List (Color × Color)) (tolerance : ℚ)
    (htol : tolerance ≤ 0) :
    buildRemapGraph image pairs tolerance = buildRemapGraph image pairs (1 / 100000) := by
  have hmax : max tolerance (1 / 100000 : ℚ) = max (1 / 100000 : ℚ) (1 / 100000) := by
    rw [max_self, max_eq_right (le_trans htol (by norm_num))]
  have hpair : ∀ (g : Graph) (s : ℕ × ℕ) (p : Color × Color),
      addPairNodes g s tolerance p = addPairNodes g s (1 / 100000) p := by
    intro g s p
    simp only [addPairNodes, pairNodes, hmax]
  have hloop : ∀ (ps : List (Color × Color)) (init : Graph × (ℕ × ℕ)),
      remapLoop tolerance init ps = remapLoop (1 / 100000) init ps := by
    intro ps
    induction ps with
    | nil => intro init; rfl
    | cons p ps ih =>
      intro init
      show remapLoop tolerance (addPairNodes init.1 init.2 tolerance p) ps
        = remapLoop (1 / 100000) (addPairNodes init.1 init.2 (1 / 100000) p) ps
      rw [hpair, ih]
  show (⟨(remapLoop tolerance _ pairs).1.nodes, (remapLoop tolerance _ pairs).1.links
      ++ [⟨(remapLoop tolerance _ pairs).2.1, (remapLoop tolerance _ pairs).2.2, 1, 0⟩,
          ⟨1, 0, 0, 0⟩]⟩ : Graph) = _
  rw [hloop]
  rfl

/-- Witness for C8 at `tolerance = 0`. -/
theorem tolerance_coerced_witness :
    (0 : ℚ) ≤ 0 ∧
    buildRemapGraph 0 [(⟨1, 4 / 5, 0, 1⟩, ⟨0, 1 / 5, 1, 1⟩)] 0
      = buildRemapGraph 0 [(⟨1, 4 / 5, 0, 1⟩, ⟨0, 1 / 5, 1, 1⟩)] (1 / 100000) :=
  ⟨le_rfl, tolerance_coerced 0 [(⟨1, 4 / 5, 0, 1⟩, ⟨0, 1 / 5, 1, 1⟩)] 0 le_rfl⟩

/-- C2: the distance feeding pair `i`'s blend factor is the Euclidean
distance (through the shared `sqrt`, of the squared distance `distSq`)
between the running color after the first `i` pairs and `source_i`, taken
over all four channels as 4-vectors; and two colors that differ only in the
alpha channel have strictly positive squared distance, so they count as
different colors for remap matching. -/
theorem distance_four_channels :
    (∀ (sqrt : ℚ → ℚ) (image : ℕ) (ps : List (Color × Color)) (tolerance : ℚ)
        (c0 : Color) (i : ℕ) (hi : i < ps.length) (fuel : ℕ), 5 * i + 2 ≤ fuel →
      evalOut sqrt c0 (buildRemapGraph image ps tolerance) fuel (7 * i + 5) 0
        = some (Value.scalar (sqrt (distSq (remapChain sqrt tolerance c0 (ps.take i))
            (ps.get ⟨i, hi⟩).1)))) ∧
    (∀ c d : Color, c.r = d.r → c.g = d.g → c.b = d.b → c.a ≠ d.a →
      0 < distSq c d) := by
  constructor
  · intro sqrt image ps tolerance c0 i hi fuel hfuel
    exact buildRemapGraph_dist_eval sqrt image ps tolerance c0 i hi fuel hfuel
  · intro c d hr hg hb ha
    have hsub : c.a - d.a ≠ 0 := sub_ne_zero.mpr ha
    have hpos : 0 < (c.a - d.a) ^ 2 := (sq_nonneg _).lt_of_ne (Ne.symm (pow_ne_zero 2 hsub))
    unfold distSq
    rw [hr, hg, hb]
    simp only [sub_self]
    nlinarith [hpos]

/-- Witness for C2: the first pair's `dist` node (node 5) on a one-pair
chain, and two colors differing only in alpha. -/
theorem distance_four_channels_witness :
    (5 * 0 + 2 ≤ 6 ∧
      evalOut sqrtQ ⟨0, 0, 0, 1⟩
          (buildRemapGraph 0 [(⟨1, 4 / 5, 0, 1⟩, ⟨0, 1 / 5, 1, 1⟩)] (1 / 10)) 6
          (7 * 0 + 5) 0
        = some (Value.scalar (sqrtQ (distSq
            (remapChain sqrtQ (1 / 10) ⟨0, 0, 0, 1⟩
              (List.take 0 [(⟨1, 4 / 5, 0, 1⟩, ⟨0, 1 / 5, 1, 1⟩)]))
            (([(⟨1, 4 / 5, 0, 1⟩, ⟨0, 1 / 5, 1, 1⟩)].get
                ⟨0, by norm_num⟩ : Color × Color)).1)))) ∧
    ((⟨0, 0, 0, 0⟩ : Color).a ≠ (⟨0, 0, 0, 1⟩ : Color).a ∧
      0 < distSq ⟨0, 0, 0, 0⟩ ⟨0, 0, 0, 1⟩) :=
  ⟨⟨by norm_num,
    distance_four_channels.1 sqrtQ 0 [(⟨1, 4 / 5, 0, 1⟩, ⟨0, 1 / 5, 1, 1⟩)] (1 / 10)
      ⟨0, 0, 0, 1⟩ 0 (by norm_num) 6 (by norm_num)⟩,
   ⟨by norm_num,
    distance_four_channels.2 ⟨0, 0, 0, 0⟩ ⟨0, 0, 0, 1⟩ rfl rfl rfl (by norm_num)⟩⟩

/-- C6 counterexample: two overlapping pairs with distinct targets and all
four blend factors nonzero in both orders, for which the two orders
nevertheless build graphs with *equal* output (both orders yield
`(13/25, 0, 0, 1)`): sample `(0,0,0,1)`, both sources equal to the sample,
targets `(2/5,0,0,1)` and `(3/5,0,0,1)`, tolerance 1. -/
theorem chain_order_coincidence_cx :
    (⟨2 / 5, 0, 0, 1⟩ : Color) ≠ ⟨3 / 5, 0, 0, 1⟩ ∧
    blendFactor sqrtQ 1 ⟨0, 0, 0, 1⟩ ⟨0, 0, 0, 1⟩ ≠ 0 ∧
    blendFactor sqrtQ 1
      (remapStep sqrtQ 1 ⟨0, 0, 0, 1⟩ (⟨0, 0, 0, 1⟩, ⟨2 / 5, 0, 0, 1⟩)) ⟨0, 0, 0, 1⟩ ≠ 0 ∧
    blendFactor sqrtQ 1
      (remapStep sqrtQ 1 ⟨0, 0, 0, 1⟩ (⟨0, 0, 0, 1⟩, ⟨3 / 5, 0, 0, 1⟩)) ⟨0, 0, 0, 1⟩ ≠ 0 ∧
    graphBaseColor sqrtQ ⟨0, 0, 0, 1⟩
        (buildRemapGraph 0
          [(⟨0, 0, 0, 1⟩, ⟨2 / 5, 0, 0, 1⟩), (⟨0, 0, 0, 1⟩, ⟨3 / 5, 0, 0, 1⟩)] 1) 11
      = graphBaseColor sqrtQ ⟨0, 0, 0, 1⟩
          (buildRemapGraph 0
            [(⟨0, 0, 0, 1⟩, ⟨3 / 5, 0, 0, 1⟩), (⟨0, 0, 0, 1⟩, ⟨2 / 5, 0, 0, 1⟩)] 1) 11 := by
  refine ⟨fun h => by rw [Color.mk.injEq] at h; norm_num at h, ?_, ?_, ?_, ?_⟩
  · norm_num [blendFactor, distSq, sqrtQ, min_def, max_def]
  · norm_num [blendFactor, remapStep, lerp, Color.add, Color.smul, distSq, sqrtQ,
      min_def, max_def]
  · norm_num [blendFactor, remapStep, lerp, Color.add, Color.smul, distSq, sqrtQ,
      min_def, max_def]
  · norm_num [graphBaseColor, buildRemapGraph, remapLoop, addPairNodes, pairNodes, pairLinks,
      evalOut, evalNode, findLink, distSq, lerp, Color.add, Color.smul, sqrtQ,
      min_def, max_def]

/-- C6 amended: chain application is order-dependent in general — there
exist two pairs with distinct targets and all blend factors nonzero in both
orders for which the two list orders build graphs with different outputs
(here `(23/50,0,0,1)` versus `(9/20,0,0,1)`) — but `T1 ≠ T2` with nonzero
factors alone does not force the outputs to differ. -/
theorem chain_order_dependent :
    (⟨2 / 5, 0, 0, 1⟩ : Color) ≠ ⟨1 / 2, 0, 0, 1⟩ ∧
    blendFactor sqrtQ 1 ⟨0, 0, 0, 1⟩ ⟨0, 0, 0, 1⟩ ≠ 0 ∧
    blendFactor sqrtQ 1
      (remapStep sqrtQ 1 ⟨0, 0, 0, 1⟩ (⟨0, 0, 0, 1⟩, ⟨2 / 5, 0, 0, 1⟩)) ⟨0, 0, 0, 1⟩ ≠ 0 ∧
    blendFactor sqrtQ 1
      (remapStep sqrtQ 1 ⟨0, 0, 0, 1⟩ (⟨0, 0, 0, 1⟩, ⟨1 / 2, 0, 0, 1⟩)) ⟨0, 0, 0, 1⟩ ≠ 0 ∧
    graphBaseColor sqrtQ ⟨0, 0, 0, 1⟩
        (buildRemapGraph 0
          [(⟨0, 0, 0, 1⟩, ⟨2 / 5, 0, 0, 1⟩), (⟨0, 0, 0, 1⟩, ⟨1 / 2, 0, 0, 1⟩)] 1) 11
      ≠ graphBaseColor sqrtQ ⟨0, 0, 0, 1⟩
          (buildRemapGraph 0
            [(⟨0, 0, 0, 1⟩, ⟨1 / 2, 0, 0, 1⟩), (⟨0, 0, 0, 1⟩, ⟨2 / 5, 0, 0, 1⟩)] 1) 11 := by
  refine ⟨fun h => by rw [Color.mk.injEq] at h; norm_num at h, ?_, ?_, ?_, ?_⟩
  · norm_num [blendFactor, distSq, sqrtQ, min_def, max_def]
  · norm_num [blendFactor, remapStep, lerp, Color.add, Color.smul, distSq, sqrtQ,
      min_def, max_def]
  · norm_num [blendFactor, remapStep, lerp, Color.add, Color.smul, distSq, sqrtQ,
      min_def, max_def]
  · norm_num [graphBaseColor, buildRemapGraph, remapLoop, addPairNodes, pairNodes, pairLinks,
      evalOut, evalNode, findLink, distSq, lerp, Color.add, Color.smul, sqrtQ,
      min_def, max_def]

/-- C7: for an empty remap chain the built graph is the identity on the
input — the image source's color output reaches the base-color input
unchanged — and the alternative path `apply_multi_remap` takes (copying the
base material verbatim onto the variant) is observably equivalent: the
copied material's observable color equals the built graph's output on every
sample. -/
theorem empty_chain_identity (sqrt : ℚ → ℚ) (tolerance : ℚ) (sample : Color)
    (image fuel : ℕ) (hfuel : 1 ≤ fuel) :
    graphBaseColor sqrt sample (buildRemapGraph image [] tolerance) fuel = some sample ∧
    ∀ (b v : MeshObject) (bm : HostMaterial), b.active_material = some bm →
      findTexImage bm = some image →
      (apply_multi_remap (some b) (some v) [] tolerance).variant
          = some { v with materials := [Material.host bm] } ∧
      materialColor sqrt sample fuel (Material.host bm)
        = graphBaseColor sqrt sample (buildRemapGraph image [] tolerance) fuel := by
  have h1 : graphBaseColor sqrt sample (buildRemapGraph image [] tolerance) fuel
      = some sample := by
    obtain ⟨f, rfl⟩ : ∃ m, fuel = m + 1 := ⟨fuel - 1, by omega⟩
    simp [graphBaseColor, buildRemapGraph, remapLoop, findLink, evalOut, evalNode]
  refine ⟨h1, ?_⟩
  intro b v bm ham hfi
  constructor
  · simp [apply_multi_remap, ham]
  · rw [h1]
    simp [materialColor, hfi]

/-- Witness for C7 on the concrete fixture objects. -/
theorem empty_chain_identity_witness :
    1 ≤ 2 ∧
    graphBaseColor sqrtQ ⟨1, 4 / 5, 0, 1⟩ (buildRemapGraph 0 [] (1 / 10)) 2
      = some ⟨1, 4 / 5, 0, 1⟩ ∧
    (baseObjW.active_material = some baseMatW ∧ findTexImage baseMatW = some 0) ∧
    (apply_multi_remap (some baseObjW) (some variantObjW) [] (1 / 10)).variant
        = some { variantObjW with materials := [Material.host baseMatW] } ∧
    materialColor sqrtQ ⟨1, 4 / 5, 0, 1⟩ 2 (Material.host baseMatW)
      = graphBaseColor sqrtQ ⟨1, 4 / 5, 0, 1⟩ (buildRemapGraph 0 [] (1 / 10)) 2 :=
  ⟨by norm_num,
   (empty_chain_identity sqrtQ (1 / 10) ⟨1, 4 / 5, 0, 1⟩ 0 2 (by norm_num)).1,
   ⟨rfl, by simp [findTexImage, baseMatW, texNodeW]⟩,
   ((empty_chain_identity sqrtQ (1 / 10) ⟨1, 4 / 5, 0, 1⟩ 0 2 (by norm_num)).2
     baseObjW variantObjW baseMatW rfl (by simp [findTexImage, baseMatW, texNodeW])).1,
   ((empty_chain_identity sqrtQ (1 / 10) ⟨1, 4 / 5, 0, 1⟩ 0 2 (by norm_num)).2
     baseObjW variantObjW baseMatW rfl (by simp [findTexImage, baseMatW, texNodeW])).2⟩

/-- C9: `apply_color_remaps` returns a failure signal (`None`) exactly when
an input is missing: the variant object is absent, or no image source can
be found through the base object (base object absent, base material absent,
or no image-texture node with an image); failures are reported through the
return value, never swallowed. -/
theorem failure_signaled (base_obj variant_obj : Option MeshObject)
    (remap_pairs : List (Color × Color)) (tolerance : ℚ) :
    (apply_color_remaps base_obj variant_obj remap_pairs tolerance).mat = none
      ↔ variant_obj = none ∨ imageSourceOf base_obj = none := by
  cases base_obj with
  | none => simp [apply_color_remaps, imageSourceOf]
  | some b =>
    cases variant_obj with
    | none => simp [apply_color_remaps]
    | some v =>
      cases ham : b.active_material with
      | none => simp [apply_color_remaps, imageSourceOf, ham]
      | some bm =>
        cases hfi : findTexImage bm with
        | none => simp [apply_color_remaps, imageSourceOf, ham, hfi]
        | some img => simp [apply_color_remaps, imageSourceOf, ham, hfi]

/-- C10: `apply_color_remaps` never modifies the base object; on failure it
leaves the variant unchanged; on success the variant's material slots
afterwards hold exactly the one freshly created remap material, regardless
of what they held before. -/
theorem apply_frame_effects (base_obj variant_obj : Option MeshObject)
    (remap_pairs : List (Color × Color)) (tolerance : ℚ) :
    (apply_color_remaps base_obj variant_obj remap_pairs tolerance).base = base_obj ∧
    ((apply_color_remaps base_obj variant_obj remap_pairs tolerance).mat = none →
      (apply_color_remaps base_obj variant_obj remap_pairs tolerance).variant
        = variant_obj) ∧
    (∀ m, (apply_color_remaps base_obj variant_obj remap_pairs tolerance).mat = some m →
      ∃ v, variant_obj = some v ∧
        (apply_color_remaps base_obj variant_obj remap_pairs tolerance).variant
          = some { v with materials := [m] }) := by
  cases base_obj with
  | none => simp [apply_color_remaps]
  | some b =>
    cases variant_obj with
    | none => simp [apply_color_remaps]
    | some v =>
      cases ham : b.active_material with
      | none => simp [apply_color_remaps, ham]
      | some bm =>
        cases hfi : findTexImage bm with
        | none => simp [apply_color_remaps, ham, hfi]
        | some img =>
          simp only [apply_color_remaps, ham, hfi]
          refine ⟨by trivial, by simp, ?_⟩
          intro m hm
          rw [Option.some.injEq] at hm
          exact ⟨v, rfl, by rw [← hm]⟩

/-- Witness for C10: a failing call leaves the variant untouched, and a
successful call leaves the variant holding exactly the new remap
material. -/
theorem apply_frame_effects_witness :
    ((apply_color_remaps none (some variantObjW) [] 1).base = none ∧
      (apply_color_remaps none (some variantObjW) [] 1).variant = some variantObjW) ∧
    ((apply_color_remaps (some baseObjW) (some variantObjW) [] 1).base = some baseObjW ∧
      ∃ v, some variantObjW = some v ∧
        (apply_color_remaps (some baseObjW) (some variantObjW) [] 1).variant
          = some { v with materials :=
              [Material.remap (variantObjW.name ++ "_RemapMaterial")
                (buildRemapGraph 0 [] 1)] }) :=
  ⟨⟨(apply_frame_effects none (some variantObjW) [] 1).1,
    (apply_frame_effects none (some variantObjW) [] 1).2.1 rfl⟩,
   ⟨(apply_frame_effects (some baseObjW) (some variantObjW) [] 1).1,
    (apply_frame_effects (some baseObjW) (some variantObjW) [] 1).2.2
      (Material.remap (variantObjW.name ++ "_RemapMaterial") (buildRemapGraph 0 [] 1))
      rfl⟩⟩

end LiveVariant
